import Mathlib

/-!
Verification of the macro-snapshot pipeline of `edgefinder_lite`
(`src/app/shared_data.py`): fetching an economic-calendar page per region,
extracting candidate indicator rows, normalizing Retail Sales / PMI / CPI
readings, scoring each region into an integer in `[0, 3]` with a bias label,
and assembling the all-region snapshot with a `last_updated` timestamp.

Modelling conventions:
* Python `float` values are modelled as `ℚ`; every numeric literal and
  comparison used by the pipeline (thresholds `50.0` and `2.0`, parsed
  decimals such as `0.7`) is exact in `ℚ`.
* Python `None` becomes `Option.none`; a Python function that can receive
  `str | None` takes an `Option String`.
* Python dicts used as parsed table rows become association lists
  (`List (String × String)`) with first-match lookup, matching `dict.get`.
* The outbound HTTP call of `requests.get` is an oracle parameter
  `net : String → Except Unit Response`: `Except.error` is a raised
  exception (timeout, connection error), `Except.ok` a response with a
  status code and body text.
* BeautifulSoup's DOM traversal (and the regex fallback over the raw HTML)
  inside `_parse_calendar_table` is an oracle parameter
  `soupScan : String → List Row` applied only to a non-empty document; the
  guard `if not html: return data_rows` is modelled exactly.
* `re.search` for the two numeric token patterns is modelled by a
  deterministic matcher (`numAt`, `percentAt`) tried at every start
  position from the left, which agrees with Python's leftmost-match
  semantics for these backtracking-free patterns.
-/

namespace EdgeFinder

/-! ## Characters and small string utilities -/

/-- The whitespace class `\s` of the regex `\s*%` (ASCII part, which is all
the source's calendar pages use). -/
def isPySpace (c : Char) : Bool :=
  c = ' ' || c = '\t' || c = '\n' || c = '\r' || c = '\x0b' || c = '\x0c'

/-- Prefix test on raw character lists, written out so that all
proofs can unfold it. -/
def isPrefixList : List Char → List Char → Bool
  | [], _ => true
  | _ :: _, [] => false
  | a :: as, b :: bs => a = b && isPrefixList as bs

/-- Python's substring test `needle in hay` on character lists. -/
def containsSub : List Char → List Char → Bool
  | needle, [] => isPrefixList needle []
  | needle, c :: t => isPrefixList needle (c :: t) || containsSub needle (t)

/-- Python's `str.lower()` (ASCII case folding, which is all the keyword
matching in the source needs). -/
def lowerStr (s : String) : String :=
  String.mk (s.data.map Char.toLower)

/-! ## Numeric token extraction

`shared_data.py` pulls numbers out of cell text with
`re.search(r"([-+]?\d+\.\d+)\s*%", txt)` (percent values) and
`re.search(r"([-+]?\d+\.\d+)", txt)` (plain values, used for PMI), then
converts `m.group(1)` with `float`.  The conversion of a matched token
never raises, so the `try/except` around `float` is modelled as the direct
rational value of the token. -/

/-- Numeric value of a digit run (the matched `\d+`). -/
def digitsVal (ds : List Char) : ℕ :=
  ds.foldl (fun a c => 10 * a + (c.toNat - 48)) 0

/-- A matched token `[-+]?\d+\.\d+`, kept in digit form: whether the sign
was `-`, the value of the digits before the dot, the value of the digits
after the dot, and how many digits followed the dot. -/
structure NumTok where
  neg : Bool
  intDigits : ℕ
  fracDigits : ℕ
  fracLen : ℕ
  deriving DecidableEq, Repr

/-- Value of `float(m.group(1))` on a matched token: its exact rational value (the
conversion of a matched token never raises, so the `try/except` around
`float` in the source is dead for matched input). -/
def tokVal (t : NumTok) : ℚ :=
  (if t.neg then -1 else 1) * ((t.intDigits : ℚ) + (t.fracDigits : ℚ) / (10 : ℚ) ^ t.fracLen)

/-- The optional sign `[-+]?` at the start of a match attempt: whether a
`-` was consumed, and the remaining characters. -/
def splitSign : List Char → (Bool × List Char)
  | [] => (false, [])
  | c :: t => if c = '-' then (true, t) else if c = '+' then (false, t) else (false, c :: t)

/-- Match `[-+]?\d+\.\d+` at the start of `cs`: the token and the
characters after it, or `none`.  The greedy `\d+` runs are maximal digit
runs; no backtracking can help because a digit is never `.`. -/
def numAt (cs : List Char) : Option (NumTok × List Char) :=
  let sgn := (splitSign cs).1
  let cs1 := (splitSign cs).2
  let d1 := cs1.takeWhile Char.isDigit
  let cs2 := cs1.dropWhile Char.isDigit
  if d1 = [] then none
  else
    match cs2 with
    | '.' :: cs3 =>
      let d2 := cs3.takeWhile Char.isDigit
      let cs4 := cs3.dropWhile Char.isDigit
      if d2 = [] then none
      else some (⟨sgn, digitsVal d1, digitsVal d2, d2.length⟩, cs4)
    | _ => none

/-- Match `[-+]?\d+\.\d+\s*%` at the start of `cs` and return group 1's
token, or `none`. -/
def percentAt (cs : List Char) : Option NumTok :=
  match numAt cs with
  | none => none
  | some (t, rest) =>
    match rest.dropWhile isPySpace with
    | '%' :: _ => some t
    | _ => none

/-- Match `[-+]?\d+\.\d+` at the start of `cs` and return group 1's token,
or `none`. -/
def plainAt (cs : List Char) : Option NumTok :=
  (numAt cs).map Prod.fst

/-- Model of `re.search` for the percent pattern: try each start position from the
left, first success wins. -/
def searchPercent : List Char → Option NumTok
  | [] => percentAt []
  | c :: t =>
    match percentAt (c :: t) with
    | some tok => some tok
    | none => searchPercent t

/-- Model of `re.search` for the plain-number pattern. -/
def searchPlain : List Char → Option NumTok
  | [] => plainAt []
  | c :: t =>
    match plainAt (c :: t) with
    | some tok => some tok
    | none => searchPlain t

/-- Model of `_extract_numeric_percent(txt)` from `shared_data.py`: `None` and the
empty string are falsy and short-circuit to `None`; otherwise the first
percent token's numeric value, or `None` when there is none. -/
def _extract_numeric_percent (txt : Option String) : Option ℚ :=
  match txt with
  | none => none
  | some s => if s = "" then none else (searchPercent s.data).map tokVal

/-- Model of `_extract_numeric_plain(txt)` from `shared_data.py` (used for PMI
values like `"51.2"`). -/
def _extract_numeric_plain (txt : Option String) : Option ℚ :=
  match txt with
  | none => none
  | some s => if s = "" then none else (searchPlain s.data).map tokVal

/-! ## Candidate rows and the indicator normalizer

`_parse_calendar_table` produces Python dicts
`{"name": ..., "actual_raw": ..., "forecast_raw": ..., "previous_raw": ...}`;
a row is modelled as an association list so that `dict.get` (with and
without a default) keeps its exact semantics on any key set. -/

/-- A candidate row: a Python dict from string keys to string values. -/
abbrev Row := List (String × String)

/-- Python's `r.get(k)`: `None` when the key is missing. -/
def rowGet (r : Row) (k : String) : Option String :=
  (r.find? (fun p => p.1 == k)).map Prod.snd

/-- Python's `r.get(k, d)`: the default `d` when the key is missing. -/
def rowGetD (r : Row) (k : String) (d : String) : String :=
  (rowGet r k).getD d

/-- The row filter of `_extract_indicator_rows`:
`any(k in r.get("name", "").lower() for k in indicator_keywords)`. -/
def rowMatches (kws : List String) (r : Row) : Bool :=
  kws.any (fun k => containsSub k.data (lowerStr (rowGetD r "name" "")).data)

/-- Model of `_extract_indicator_rows(rows, indicator_keywords)` from
`shared_data.py`: the first row, in input order, whose name contains any
keyword; `None` when no row matches.  (The rows carry no timestamp and
none is consulted.) -/
def _extract_indicator_rows : List Row → List String → Option Row
  | [], _ => none
  | r :: t, kws => if rowMatches kws r then some r else _extract_indicator_rows t kws

/-- A normalized Retail Sales reading (`{actual, forecast, previous}`,
percent month-over-month, each optionally absent). -/
structure Retail where
  actual : Option ℚ
  forecast : Option ℚ
  previous : Option ℚ
  deriving DecidableEq, Repr

/-- A normalized PMI reading (`{current, previous}`, plain index values). -/
structure Pmi where
  current : Option ℚ
  previous : Option ℚ
  deriving DecidableEq, Repr

/-- A normalized CPI reading
(`{actual_yoy, forecast_yoy, previous_yoy}`, percent year-over-year). -/
structure Cpi where
  actual_yoy : Option ℚ
  forecast_yoy : Option ℚ
  previous_yoy : Option ℚ
  deriving DecidableEq, Repr

/-- Model of `parse_retail_sales(rows)` from `shared_data.py`. -/
def parse_retail_sales (rows : List Row) : Option Retail :=
  match _extract_indicator_rows rows ["retail sales"] with
  | none => none
  | some r =>
    let actual := _extract_numeric_percent (rowGet r "actual_raw")
    let forecast := _extract_numeric_percent (rowGet r "forecast_raw")
    let previous := _extract_numeric_percent (rowGet r "previous_raw")
    if actual = none ∧ forecast = none ∧ previous = none then none
    else some ⟨actual, forecast, previous⟩

/-- Model of `parse_pmi(rows)` from `shared_data.py`. -/
def parse_pmi (rows : List Row) : Option Pmi :=
  match _extract_indicator_rows rows ["pmi"] with
  | none => none
  | some r =>
    let current := _extract_numeric_plain (rowGet r "actual_raw")
    let prev := _extract_numeric_plain (rowGet r "previous_raw")
    if current = none ∧ prev = none then none
    else some ⟨current, prev⟩

/-- Model of `parse_cpi(rows)` from `shared_data.py`. -/
def parse_cpi (rows : List Row) : Option Cpi :=
  match _extract_indicator_rows rows ["cpi", "consumer price", "inflation"] with
  | none => none
  | some r =>
    let actual := _extract_numeric_percent (rowGet r "actual_raw")
    let forecast := _extract_numeric_percent (rowGet r "forecast_raw")
    let previous := _extract_numeric_percent (rowGet r "previous_raw")
    if actual = none ∧ forecast = none ∧ previous = none then none
    else some ⟨actual, forecast, previous⟩

/-! ## Region scorer

`score_region_macro(retail, pmi, cpi)` in the source initializes
`score = 0` and runs three independent blocks, each conditionally doing
`score += 1` (the blocks read disjoint inputs, so the running sum is the
sum of the three per-pillar points), then returns
`max(0, min(score, 3))`.  The Lean names drop the source's `_macro`
suffix from `score_region_macro` / `get_region_macro` /
`RegionMacro`. -/

/-- The Retail block: `+1` iff `actual` is present and beats a present
forecast or a present previous. -/
def retail_point (retail : Option Retail) : Int :=
  match retail with
  | none => 0
  | some r =>
    match r.actual with
    | none => 0
    | some a =>
      if (match r.forecast with | some f => decide (a > f) | none => false)
          || (match r.previous with | some p => decide (a > p) | none => false) then 1
      else 0

/-- The PMI block: `+1` iff `current >= 50`, else `+1` iff `current`
beats a present `previous`. -/
def pmi_point (pmi : Option Pmi) : Int :=
  match pmi with
  | none => 0
  | some m =>
    match m.current with
    | none => 0
    | some cur =>
      if cur ≥ 50 then 1
      else
        match m.previous with
        | none => 0
        | some prev => if cur > prev then 1 else 0

/-- The CPI block: `+1` iff `actual_yoy` beats a present `forecast_yoy`,
else (forecast absent) `+1` iff `actual_yoy >= 2.0`. -/
def cpi_point (cpi : Option Cpi) : Int :=
  match cpi with
  | none => 0
  | some c =>
    match c.actual_yoy with
    | none => 0
    | some act =>
      match c.forecast_yoy with
      | some fc => if act > fc then 1 else 0
      | none => if act ≥ 2 then 1 else 0

/-- Model of `score_region_macro(retail, pmi, cpi)` from `shared_data.py`: the sum
of the three blocks, clamped by `max(0, min(score, 3))`. -/
def score_region (retail : Option Retail) (pmi : Option Pmi) (cpi : Option Cpi) : Int :=
  max 0 (min (retail_point retail + pmi_point pmi + cpi_point cpi) 3)

/-- Model of `summarize_bias(score)` from `shared_data.py`. -/
def summarize_bias (score : Int) : String :=
  if score ≥ 3 then "Strong macro, bullish bias"
  else if score = 2 then "Supportive macro, mild bullish bias"
  else if score = 1 then "Neutral / mixed"
  else "Weak macro, bearish bias"

/-! ## Fetcher and region pipeline -/

/-- An HTTP response as `_fetch_calendar_html` reads it: the status code
and the body text. -/
structure Response where
  status : Nat
  text : String
  deriving DecidableEq, Repr

/-- The network oracle: what `requests.get(url, ...)` does for each URL.
`Except.error` is a raised exception (timeout, connection error, ...). -/
abbrev Net := String → Except Unit Response

/-- Model of `_fetch_calendar_html(url)` from `shared_data.py`: `None` for a falsy
URL, `None` on any exception or non-200 status or empty body, the body
text otherwise.  Its Python body cannot raise: the only fallible call is
inside `try/except`. -/
def _fetch_calendar_html (net : Net) (url : Option String) : Option String :=
  match url with
  | none => none
  | some u =>
    if u = "" then none
    else
      match net u with
      | Except.error _ => none
      | Except.ok resp => if resp.status = 200 ∧ resp.text ≠ "" then some resp.text else none

/-- The DOM-scan oracle: what BeautifulSoup row extraction (plus the
regex fallback block-scan) yields on a non-empty HTML document. -/
abbrev SoupScan := String → List Row

/-- Model of `_parse_calendar_table(html)` from `shared_data.py`: the guard
`if not html: return data_rows` returns the empty row list for `None`
and for the empty string; otherwise the document is scanned. -/
def _parse_calendar_table (soupScan : SoupScan) (html : Option String) : List Row :=
  match html with
  | none => []
  | some h => if h = "" then [] else soupScan h

/-- The `REGION_URLS` table of `shared_data.py`, in its source order. -/
def REGION_URLS : List (String × String) :=
  [("us", "https://m.investing.com/economic-calendar/united-states"),
   ("eurozone", "https://m.investing.com/economic-calendar/euro-zone"),
   ("uk", "https://m.investing.com/economic-calendar/united-kingdom"),
   ("canada", "https://m.investing.com/economic-calendar/canada"),
   ("australia", "https://m.investing.com/economic-calendar/australia"),
   ("new_zealand", "https://m.investing.com/economic-calendar/new-zealand"),
   ("switzerland", "https://m.investing.com/economic-calendar/switzerland"),
   ("japan", "https://m.investing.com/economic-calendar/japan")]

/-- Lookup `urls.get(region_key)` for a region→URL table. -/
def regionUrlOf (urls : List (String × String)) (k : String) : Option String :=
  (urls.find? (fun p => p.1 == k)).map Prod.snd

/-- Lookup `REGION_URLS.get(region_key)`. -/
def regionUrl (k : String) : Option String :=
  regionUrlOf REGION_URLS k

/-- The result of `get_region_macro`: always a dict with keys
`retail`, `pmi`, `cpi`, `score`, `bias`. -/
structure RegionMacroData where
  retail : Option Retail
  pmi : Option Pmi
  cpi : Option Cpi
  score : Int
  bias : String
  deriving DecidableEq, Repr

/-- The candidate rows `get_region_macro` computes for one region:
`_parse_calendar_table(_fetch_calendar_html(urls.get(region_key)))`. -/
def region_rows (urls : List (String × String)) (net : Net) (soup : SoupScan)
    (region_key : String) : List Row :=
  _parse_calendar_table soup (_fetch_calendar_html net (regionUrlOf urls region_key))

/-- Model of `get_region_macro(region_key)` from `shared_data.py`, generalized over
the region→URL table it reads (the source reads the module-level
`REGION_URLS`). -/
def get_region_with (urls : List (String × String)) (net : Net) (soup : SoupScan)
    (region_key : String) : RegionMacroData :=
  { retail := parse_retail_sales (region_rows urls net soup region_key)
    pmi := parse_pmi (region_rows urls net soup region_key)
    cpi := parse_cpi (region_rows urls net soup region_key)
    score := score_region (parse_retail_sales (region_rows urls net soup region_key))
      (parse_pmi (region_rows urls net soup region_key))
      (parse_cpi (region_rows urls net soup region_key))
    bias := summarize_bias (score_region (parse_retail_sales (region_rows urls net soup region_key))
      (parse_pmi (region_rows urls net soup region_key))
      (parse_cpi (region_rows urls net soup region_key))) }

/-- Model of `get_region_macro(region_key)` against the source's `REGION_URLS`. -/
def get_region (net : Net) (soup : SoupScan) (region_key : String) : RegionMacroData :=
  get_region_with REGION_URLS net soup region_key

/-! ## Snapshot assembly -/

/-- A value stored in the snapshot dict: a region result or the
`last_updated` timestamp string. -/
inductive SnapVal where
  | region : RegionMacroData → SnapVal
  | time : String → SnapVal
  deriving DecidableEq

/-- Python dict assignment `d[k] = v`: overwrite in place when the key
exists, append otherwise (insertion order is preserved). -/
def dictInsert (d : List (String × SnapVal)) (k : String) (v : SnapVal) :
    List (String × SnapVal) :=
  if d.any (fun p => p.1 == k) then d.map (fun p => if p.1 == k then (k, v) else p)
  else d ++ [(k, v)]

/-- Python dict lookup `d.get(k)` on the snapshot. -/
def dictFind (d : List (String × SnapVal)) (k : String) : Option SnapVal :=
  (d.find? (fun p => p.1 == k)).map Prod.snd

/-- Model of `get_macro_snapshot_all()` from `shared_data.py`, generalized over the
region→URL table: one `snapshot[region_key] = get_region_macro(region_key)`
per configured key, then `snapshot["last_updated"] = <timestamp>` into the
same dict. -/
def build_snapshot (urls : List (String × String)) (net : Net) (soup : SoupScan)
    (now_str : String) : List (String × SnapVal) :=
  let snapshot := urls.foldl
    (fun acc kv => dictInsert acc kv.1 (SnapVal.region (get_region_with urls net soup kv.1))) []
  dictInsert snapshot "last_updated" (SnapVal.time now_str)

/-- Model of `get_macro_snapshot_all()` against the source's `REGION_URLS`; the
timestamp string `datetime.utcnow().strftime(...)` is the parameter
`now_str`. -/
def get_macro_snapshot_all (net : Net) (soup : SoupScan) (now_str : String) :
    List (String × SnapVal) :=
  build_snapshot REGION_URLS net soup now_str

/-! ## Helper lemmas -/

/-- Each per-pillar block contributes `0` or `1`. -/
lemma retail_point_01 (retail : Option Retail) :
    retail_point retail = 0 ∨ retail_point retail = 1 := by
  rcases retail with _ | ⟨a, f, p⟩
  · exact Or.inl rfl
  · rcases a with _ | a
    · exact Or.inl rfl
    · simp only [retail_point]
      split_ifs <;> simp

/-- Each per-pillar block contributes `0` or `1`. -/
lemma pmi_point_01 (pmi : Option Pmi) : pmi_point pmi = 0 ∨ pmi_point pmi = 1 := by
  rcases pmi with _ | ⟨cur, prev⟩
  · exact Or.inl rfl
  · rcases cur with _ | cur
    · exact Or.inl rfl
    · rcases prev with _ | prev <;> simp only [pmi_point] <;> split_ifs <;> simp

/-- Each per-pillar block contributes `0` or `1`. -/
lemma cpi_point_01 (cpi : Option Cpi) : cpi_point cpi = 0 ∨ cpi_point cpi = 1 := by
  rcases cpi with _ | ⟨act, fc, prev⟩
  · exact Or.inl rfl
  · rcases act with _ | act
    · exact Or.inl rfl
    · rcases fc with _ | fc <;> simp only [cpi_point] <;> split_ifs <;> simp

/-- With the other two pillars absent the score is exactly the PMI block's
point (the clamp does nothing on `0` or `1`). -/
lemma score_region_pmi_only (p : Pmi) :
    score_region none (some p) none = pmi_point (some p) := by
  unfold score_region
  have h01 := pmi_point_01 (some p)
  have hr : retail_point none = 0 := rfl
  have hc : cpi_point none = 0 := rfl
  rw [hr, hc]
  rcases h01 with h | h <;> rw [h] <;> decide

/-- With the other two pillars absent the score is exactly the CPI block's
point. -/
lemma score_region_cpi_only (c : Cpi) :
    score_region none none (some c) = cpi_point (some c) := by
  unfold score_region
  have h01 := cpi_point_01 (some c)
  have hr : retail_point none = 0 := rfl
  have hp : pmi_point none = 0 := rfl
  rw [hr, hp]
  rcases h01 with h | h <;> rw [h] <;> decide

/-- Overwriting assignment: when some key of `d` matches, mapping the
overwrite over `d` makes the first matching entry `(k, v)`. -/
lemma find_in_overwritten (d : List (String × SnapVal)) (k : String) (v : SnapVal) :
    (d.map (fun p => if p.1 == k then (k, v) else p)).find? (fun p => p.1 == k) =
      if d.any (fun p => p.1 == k) then some (k, v) else none := by
  induction d with
  | nil => rfl
  | cons p t ih =>
    simp only [List.map_cons, List.any_cons]
    by_cases hp : p.1 == k
    · rw [if_pos hp, List.find?_cons_of_pos _ (by simp)]
      simp [hp]
    · have hp' : (p.1 == k) = false := by simpa using hp
      rw [if_neg hp, List.find?_cons_of_neg _ (by simp [hp']), ih]
      simp only [hp', Bool.false_or]

/-- Fresh assignment: when no key of `d` matches, the appended entry
`(k, v)` is found. -/
lemma find_appended (d : List (String × SnapVal)) (k : String) (v : SnapVal)
    (h : d.any (fun p => p.1 == k) = false) :
    (d ++ [(k, v)]).find? (fun p => p.1 == k) = some (k, v) := by
  induction d with
  | nil => simp [List.find?]
  | cons p t ih =>
    simp only [List.any_cons, Bool.or_eq_false_iff] at h
    simp only [List.cons_append]
    rw [List.find?_cons_of_neg _ (by simp [h.1]), ih h.2]

/-- Assignment `d[k] = v` makes a lookup of `k` yield `v`, whether or not `k` was
present before. -/
lemma dictFind_insert (d : List (String × SnapVal)) (k : String) (v : SnapVal) :
    dictFind (dictInsert d k v) k = some v := by
  unfold dictInsert dictFind
  by_cases h : d.any (fun p => p.1 == k)
  · rw [if_pos h, find_in_overwritten, if_pos h]
    rfl
  · rw [if_neg h, find_appended d k v (by simp only [Bool.not_eq_true] at h; exact h)]
    rfl

/-- The characters `splitSign` consumes are `[]`, `['-']` or `['+']`. -/
lemma splitSign_decomp (cs : List Char) :
    ∃ sg, (sg = [] ∨ sg = ['-'] ∨ sg = ['+']) ∧ cs = sg ++ (splitSign cs).2 := by
  cases cs with
  | nil => exact ⟨[], Or.inl rfl, rfl⟩
  | cons c t =>
    by_cases h1 : c = '-'
    · subst h1
      exact ⟨['-'], Or.inr (Or.inl rfl), by simp [splitSign]⟩
    · by_cases h2 : c = '+'
      · subst h2
        refine ⟨['+'], Or.inr (Or.inr rfl), ?_⟩
        simp [splitSign, h1]
      · refine ⟨[], Or.inl rfl, ?_⟩
        simp [splitSign, h1, h2]

/-- Soundness of the token matcher: a successful `numAt` exhibits a
`[-+]?\d+\.\d+` token at the start of the input. -/
lemma numAt_sound (cs : List Char) (tok : NumTok) (rest : List Char)
    (h : numAt cs = some (tok, rest)) :
    ∃ sg d1 d2, (sg = [] ∨ sg = ['-'] ∨ sg = ['+']) ∧
      d1 ≠ [] ∧ d1.all Char.isDigit = true ∧ d2 ≠ [] ∧ d2.all Char.isDigit = true ∧
      cs = sg ++ (d1 ++ ('.' :: (d2 ++ rest))) := by
  simp only [numAt] at h
  split_ifs at h with hd1
  split at h
  next cs3 heq =>
    split_ifs at h with hd2
    rw [Option.some.injEq, Prod.mk.injEq] at h
    obtain ⟨-, hrest⟩ := h
    obtain ⟨sg, hsg, hcs⟩ := splitSign_decomp cs
    refine ⟨sg, (splitSign cs).2.takeWhile Char.isDigit, cs3.takeWhile Char.isDigit,
      hsg, hd1, List.all_takeWhile, hd2, List.all_takeWhile, ?_⟩
    subst hrest
    rw [List.takeWhile_append_dropWhile Char.isDigit cs3]
    conv_lhs => rw [hcs]
    congr 1
    rw [← heq]
    exact (List.takeWhile_append_dropWhile Char.isDigit (splitSign cs).2).symm
  next => cases h

/-- Soundness of the percent matcher: a successful `percentAt` exhibits a
`[-+]?\d+\.\d+\s*%` token at the start of the input. -/
lemma percentAt_sound (cs : List Char) (tok : NumTok) (h : percentAt cs = some tok) :
    ∃ sg d1 d2 ws post, (sg = [] ∨ sg = ['-'] ∨ sg = ['+']) ∧
      d1 ≠ [] ∧ d1.all Char.isDigit = true ∧ d2 ≠ [] ∧ d2.all Char.isDigit = true ∧
      ws.all isPySpace = true ∧
      cs = sg ++ (d1 ++ ('.' :: (d2 ++ (ws ++ ('%' :: post))))) := by
  cases hnum : numAt cs with
  | none =>
    simp only [percentAt, hnum] at h
    cases h
  | some pr =>
    obtain ⟨t, rest⟩ := pr
    simp only [percentAt, hnum] at h
    obtain ⟨sg, d1, d2, hsg, hd1, ha1, hd2, ha2, hcs⟩ := numAt_sound cs t rest hnum
    split at h
    next post heq =>
      cases h
      refine ⟨sg, d1, d2, rest.takeWhile isPySpace, post, hsg, hd1, ha1, hd2, ha2,
        List.all_takeWhile, ?_⟩
      conv_lhs => rw [hcs, ← List.takeWhile_append_dropWhile isPySpace rest, heq]
    next heq => cases h

/-- Soundness of `re.search` for the percent pattern: a hit exhibits a
percent token somewhere in the input. -/
lemma searchPercent_sound (cs : List Char) (tok : NumTok)
    (h : searchPercent cs = some tok) :
    ∃ pre sg d1 d2 ws post, (sg = [] ∨ sg = ['-'] ∨ sg = ['+']) ∧
      d1 ≠ [] ∧ d1.all Char.isDigit = true ∧ d2 ≠ [] ∧ d2.all Char.isDigit = true ∧
      ws.all isPySpace = true ∧
      cs = pre ++ (sg ++ (d1 ++ ('.' :: (d2 ++ (ws ++ ('%' :: post)))))) := by
  induction cs with
  | nil => simp [searchPercent, percentAt, numAt, splitSign] at h
  | cons c t ih =>
    cases hp : percentAt (c :: t) with
    | some tok0 =>
      simp only [searchPercent, hp] at h
      cases h
      obtain ⟨sg, d1, d2, ws, post, hsg, hd1, ha1, hd2, ha2, hws, hcs⟩ :=
        percentAt_sound (c :: t) tok hp
      exact ⟨[], sg, d1, d2, ws, post, hsg, hd1, ha1, hd2, ha2, hws, hcs⟩
    | none =>
      simp only [searchPercent, hp] at h
      obtain ⟨pre, sg, d1, d2, ws, post, hsg, hd1, ha1, hd2, ha2, hws, hcs⟩ := ih h
      exact ⟨c :: pre, sg, d1, d2, ws, post, hsg, hd1, ha1, hd2, ha2, hws, by rw [hcs]; rfl⟩

/-- Soundness of `re.search` for the plain-number pattern. -/
lemma searchPlain_sound (cs : List Char) (tok : NumTok)
    (h : searchPlain cs = some tok) :
    ∃ pre sg d1 d2 post, (sg = [] ∨ sg = ['-'] ∨ sg = ['+']) ∧
      d1 ≠ [] ∧ d1.all Char.isDigit = true ∧ d2 ≠ [] ∧ d2.all Char.isDigit = true ∧
      cs = pre ++ (sg ++ (d1 ++ ('.' :: (d2 ++ post)))) := by
  induction cs with
  | nil => simp [searchPlain, plainAt, numAt, splitSign] at h
  | cons c t ih =>
    cases hp : plainAt (c :: t) with
    | some tok0 =>
      simp only [searchPlain, hp] at h
      cases h
      simp only [plainAt, Option.map_eq_some'] at hp
      obtain ⟨⟨t1, rest⟩, hnum, htok⟩ := hp
      cases htok
      obtain ⟨sg, d1, d2, hsg, hd1, ha1, hd2, ha2, hcs⟩ := numAt_sound _ _ _ hnum
      exact ⟨[], sg, d1, d2, rest, hsg, hd1, ha1, hd2, ha2, hcs⟩
    | none =>
      simp only [searchPlain, hp] at h
      obtain ⟨pre, sg, d1, d2, post, hsg, hd1, ha1, hd2, ha2, hcs⟩ := ih h
      exact ⟨c :: pre, sg, d1, d2, post, hsg, hd1, ha1, hd2, ha2, by rw [hcs]; rfl⟩

/-! ## Claims -/

/-- C1: for every input triple (retail, pmi, cpi) of optional readings,
`score_region_macro` returns an integer in `{0, 1, 2, 3}`, and
`summarize_bias` maps 3 to "Strong macro, bullish bias", 2 to "Supportive
macro, mild bullish bias", 1 to "Neutral / mixed" and 0 to "Weak macro,
bearish bias" — so no other bias string is ever produced for a score in
`[0, 3]`. -/
theorem score_in_range_and_bias_mapping (retail : Option Retail) (pmi : Option Pmi)
    (cpi : Option Cpi) :
    (score_region retail pmi cpi = 0 ∨ score_region retail pmi cpi = 1 ∨
      score_region retail pmi cpi = 2 ∨ score_region retail pmi cpi = 3) ∧
    summarize_bias 3 = "Strong macro, bullish bias" ∧
    summarize_bias 2 = "Supportive macro, mild bullish bias" ∧
    summarize_bias 1 = "Neutral / mixed" ∧
    summarize_bias 0 = "Weak macro, bearish bias" := by
  refine ⟨?_, rfl, rfl, rfl, rfl⟩
  have h1 : 0 ≤ score_region retail pmi cpi := le_max_left _ _
  have h2 : score_region retail pmi cpi ≤ 3 := max_le (by norm_num) (min_le_right _ _)
  omega

/-- C3: a configured region whose pipeline run matched zero indicators
scores 0, not 1: `score_region_macro` on three absent readings is 0, and
a `get_region_macro` result whose three readings are all absent has
score 0. -/
theorem all_absent_scores_zero :
    score_region none none none = 0 ∧
    (∀ (net : Net) (soup : SoupScan) (k : String),
      (get_region net soup k).retail = none → (get_region net soup k).pmi = none →
      (get_region net soup k).cpi = none → (get_region net soup k).score = 0) := by
  constructor
  · decide
  · intro net soup k h1 h2 h3
    simp only [get_region, get_region_with] at h1 h2 h3 ⊢
    rw [h1, h2, h3]
    decide

/-- C2 counterexample: `"norway"` has no URL mapping, and
`get_region_macro("norway")` returns score 0 with bias
"Weak macro, bearish bias" (readings all absent) — not score 1 with
"Neutral / mixed" as the claim states. -/
theorem unconfigured_region_cex :
    regionUrl "norway" = none ∧
    get_region (fun _ => Except.error ()) (fun _ => []) "norway" =
      ⟨none, none, none, 0, "Weak macro, bearish bias"⟩ ∧
    ¬ ((get_region (fun _ => Except.error ()) (fun _ => []) "norway").score = 1 ∧
       (get_region (fun _ => Except.error ()) (fun _ => []) "norway").bias =
         "Neutral / mixed") := by
  refine ⟨by decide, by decide, ?_⟩
  intro h
  have := h.1
  revert this
  decide

/-- C2 amended: for every region key with no URL mapping configured,
`get_region_macro` returns all three readings absent with score 0 and
bias "Weak macro, bearish bias" (the fetch guard turns the missing URL
into no document, hence no rows, hence three absent readings). -/
theorem unconfigured_region_default (net : Net) (soup : SoupScan) (k : String)
    (h : regionUrl k = none) :
    get_region net soup k = ⟨none, none, none, 0, "Weak macro, bearish bias"⟩ := by
  unfold regionUrl at h
  have hr : region_rows REGION_URLS net soup k = [] := by
    unfold region_rows
    rw [h]
    rfl
  unfold get_region get_region_with
  rw [hr]
  decide

/-- C2 witness: the amended default at the concrete unconfigured key
`"sweden"`. -/
theorem unconfigured_region_default_witness :
    get_region (fun _ => Except.error ()) (fun _ => [[("name", "CPI (YoY)")]]) "sweden" =
      ⟨none, none, none, 0, "Weak macro, bearish bias"⟩ :=
  unconfigured_region_default _ _ "sweden" (by decide)

/-- Two candidate rows that both match the keyword `"pmi"`, carrying
`timestamp` entries `2025-01-01` and `2025-02-01`. -/
def pmiRowJan : Row :=
  [("name", "Manufacturing PMI"), ("actual_raw", "48.0"), ("forecast_raw", ""),
   ("previous_raw", "49.1"), ("timestamp", "2025-01-01")]

/-- The February twin of `pmiRowJan`. -/
def pmiRowFeb : Row :=
  [("name", "Services PMI"), ("actual_raw", "52.0"), ("forecast_raw", ""),
   ("previous_raw", "48.0"), ("timestamp", "2025-02-01")]

/-- C4 counterexample: with two rows matching `"pmi"` timestamped
`2025-01-01` and `2025-02-01`, in that input order,
`_extract_indicator_rows` selects the January row — not the February row
the claim's descending-timestamp policy would require. -/
theorem extract_ignores_timestamps_cex :
    rowGetD pmiRowJan "timestamp" "" = "2025-01-01" ∧
    rowGetD pmiRowFeb "timestamp" "" = "2025-02-01" ∧
    rowMatches ["pmi"] pmiRowJan = true ∧
    rowMatches ["pmi"] pmiRowFeb = true ∧
    _extract_indicator_rows [pmiRowJan, pmiRowFeb] ["pmi"] = some pmiRowJan ∧
    pmiRowJan ≠ pmiRowFeb := by
  decide

/-- C4 amended: `_extract_indicator_rows` filters rows whose name contains
any keyword as a case-insensitive substring and returns the first such row
in first-encountered input order; timestamps are never consulted (parsed
rows carry none), so input order alone decides between multiple
matches. -/
theorem extract_first_match (rows1 : List Row) (r : Row) (rows2 : List Row)
    (kws : List String) (h1 : ∀ x ∈ rows1, rowMatches kws x = false)
    (h2 : rowMatches kws r = true) :
    _extract_indicator_rows (rows1 ++ r :: rows2) kws = some r := by
  induction rows1 with
  | nil => simp [_extract_indicator_rows, h2]
  | cons a t ih =>
    have ha := h1 a (by simp)
    simp only [List.cons_append, _extract_indicator_rows, ha]
    exact ih fun x hx => h1 x (by simp [hx])

/-- C4 witness: the first matching row after one non-matching row is
selected. -/
theorem extract_first_match_witness :
    _extract_indicator_rows ([[("name", "GDP (QoQ)")]] ++ pmiRowFeb :: [pmiRowJan]) ["pmi"] =
      some pmiRowFeb :=
  extract_first_match [[("name", "GDP (QoQ)")]] pmiRowFeb [pmiRowJan] ["pmi"]
    (by decide) (by decide)

/-- C5: the PMI point is awarded iff `current` is present and
`current ≥ 50`, or — only otherwise — `current` and `previous` are both
present and `current > previous`; the pillar contributes at most one
point, and `pmi = {current: 50.0, previous: 51.0}` earns it even though
PMI is falling. -/
theorem pmi_scoring_rule (p : Pmi) :
    (score_region none (some p) none = 0 ∨ score_region none (some p) none = 1) ∧
    (score_region none (some p) none = 1 ↔
      (∃ cur, p.current = some cur ∧ 50 ≤ cur) ∨
      (∃ cur prev, p.current = some cur ∧ p.previous = some prev ∧
        ¬ 50 ≤ cur ∧ prev < cur)) ∧
    score_region none (some ⟨some 50, some 51⟩) none = 1 := by
  refine ⟨?_, ?_, ?_⟩
  · rw [score_region_pmi_only]
    exact pmi_point_01 _
  · rw [score_region_pmi_only]
    rcases p with ⟨cur, prev⟩
    rcases cur with _ | cur
    · simp [pmi_point]
    · rcases prev with _ | prev
      · simp only [pmi_point]
        split_ifs with h <;> simp [h]
      · simp only [pmi_point]
        split_ifs with h h2
        · simp [h]
        · simp [h, h2, not_le.mp h]
        · simp [h, h2]
  · rw [score_region_pmi_only]
    norm_num [pmi_point]

/-- C6: the CPI point is awarded iff `actual_yoy` and `forecast_yoy` are
both present with `actual_yoy > forecast_yoy`, or `forecast_yoy` is
absent, `actual_yoy` present and `actual_yoy ≥ 2.0`; the boundary is
inclusive (`2.0` with no forecast earns the point, `1.9` does not). -/
theorem cpi_scoring_rule (c : Cpi) :
    (score_region none none (some c) = 0 ∨ score_region none none (some c) = 1) ∧
    (score_region none none (some c) = 1 ↔
      (∃ a f, c.actual_yoy = some a ∧ c.forecast_yoy = some f ∧ f < a) ∨
      (c.forecast_yoy = none ∧ ∃ a, c.actual_yoy = some a ∧ 2 ≤ a)) ∧
    score_region none none (some ⟨some 2, none, none⟩) = 1 ∧
    score_region none none (some ⟨some (1.9 : ℚ), none, none⟩) = 0 := by
  refine ⟨?_, ?_, ?_, ?_⟩
  · rw [score_region_cpi_only]
    exact cpi_point_01 _
  · rw [score_region_cpi_only]
    rcases c with ⟨act, fc, prev⟩
    rcases act with _ | act
    · simp [cpi_point]
    · rcases fc with _ | fc
      · simp only [cpi_point]
        split_ifs with h <;> simp [h]
      · simp only [cpi_point]
        split_ifs with h <;> simp [h]
  · rw [score_region_cpi_only]
    norm_num [cpi_point]
  · rw [score_region_cpi_only]
    norm_num [cpi_point]

/-- C7: the fetcher cannot raise (its Lean model is a total function into
`Option`), and it returns a body `t` exactly when the URL is present and
non-empty, the request returns instead of raising, the status is 200 and
the body is non-empty; every other outcome — absent or empty URL, raised
exception, non-200 status, empty body — is the "no data" result
`none`. -/
theorem fetch_contract (net : Net) (url : Option String) (t : String) :
    _fetch_calendar_html net url = some t ↔
      ∃ u resp, url = some u ∧ u ≠ "" ∧ net u = Except.ok resp ∧
        resp.status = 200 ∧ resp.text = t ∧ t ≠ "" := by
  cases url with
  | none => simp [_fetch_calendar_html]
  | some u =>
    by_cases hu : u = ""
    · subst hu
      simp [_fetch_calendar_html]
    · cases hnet : net u with
      | error e => simp [_fetch_calendar_html, hu, hnet]
      | ok resp =>
        by_cases hs : resp.status = 200 ∧ resp.text ≠ ""
        · simp [_fetch_calendar_html, hu, hnet, hs, hs.1, hs.2, eq_comm]
          exact fun ht => ht ▸ hs.2
        · simp [_fetch_calendar_html, hu, hnet, hs]
          intro h200 htext
          subst htext
          by_contra hne
          exact hs ⟨h200, hne⟩

/-- C9: each per-pillar normalizer returns either absent or a reading
with at least one non-absent numeric field — a matched row all of whose
fields coerce to absent collapses to "no reading". -/
theorem reading_never_all_absent :
    (∀ rows r, parse_retail_sales rows = some r →
      (r.actual ≠ none ∨ r.forecast ≠ none ∨ r.previous ≠ none)) ∧
    (∀ rows m, parse_pmi rows = some m → (m.current ≠ none ∨ m.previous ≠ none)) ∧
    (∀ rows c, parse_cpi rows = some c →
      (c.actual_yoy ≠ none ∨ c.forecast_yoy ≠ none ∨ c.previous_yoy ≠ none)) := by
  refine ⟨?_, ?_, ?_⟩
  · intro rows r h
    cases hext : _extract_indicator_rows rows ["retail sales"] with
    | none => simp [parse_retail_sales, hext] at h
    | some row =>
      simp only [parse_retail_sales, hext] at h
      split_ifs at h with hcond
      cases h
      by_contra hall
      push_neg at hall
      exact hcond hall
  · intro rows m h
    cases hext : _extract_indicator_rows rows ["pmi"] with
    | none => simp [parse_pmi, hext] at h
    | some row =>
      simp only [parse_pmi, hext] at h
      split_ifs at h with hcond
      cases h
      by_contra hall
      push_neg at hall
      exact hcond hall
  · intro rows c h
    cases hext : _extract_indicator_rows rows ["cpi", "consumer price", "inflation"] with
    | none => simp [parse_cpi, hext] at h
    | some row =>
      simp only [parse_cpi, hext] at h
      split_ifs at h with hcond
      cases h
      by_contra hall
      push_neg at hall
      exact hcond hall

/-- C10: the snapshot stores `last_updated` as a key of the same dict as
the region results: its keys are exactly the eight configured regions (in
order) plus `"last_updated"`; each region key maps to that region's
`get_region_macro` result while `"last_updated"` maps to the timestamp
string (a value that is not a RegionMacro); and for any configuration, the
final `snapshot["last_updated"] = <timestamp>` assignment wins, so a
region configured under the key `"last_updated"` would be silently
overwritten by the timestamp. -/
theorem snapshot_keys_and_timestamp :
    (∀ (net : Net) (soup : SoupScan) (now_str : String),
      (get_macro_snapshot_all net soup now_str).map Prod.fst =
        ["us", "eurozone", "uk", "canada", "australia", "new_zealand", "switzerland",
         "japan", "last_updated"]) ∧
    (∀ (net : Net) (soup : SoupScan) (now_str : String),
      dictFind (get_macro_snapshot_all net soup now_str) "last_updated" =
        some (SnapVal.time now_str)) ∧
    (∀ (net : Net) (soup : SoupScan) (now_str : String) (kv : String × String),
      kv ∈ REGION_URLS →
      dictFind (get_macro_snapshot_all net soup now_str) kv.1 =
        some (SnapVal.region (get_region net soup kv.1))) ∧
    (∀ (net : Net) (soup : SoupScan) (now_str : String) (urls : List (String × String)),
      "last_updated" ∈ urls.map Prod.fst →
      dictFind (build_snapshot urls net soup now_str) "last_updated" =
        some (SnapVal.time now_str)) := by
  refine ⟨?_, ?_, ?_, ?_⟩
  · intro net soup now_str
    simp [get_macro_snapshot_all, build_snapshot, REGION_URLS, dictInsert]
  · intro net soup now_str
    simp [get_macro_snapshot_all, build_snapshot, REGION_URLS, dictInsert, dictFind]
  · intro net soup now_str kv hkv
    fin_cases hkv <;>
      simp [get_macro_snapshot_all, build_snapshot, REGION_URLS, dictInsert, dictFind,
        get_region]
  · intro net soup now_str urls _
    exact dictFind_insert _ _ _

/-- C8: numeric coercion is total and returns absent rather than zero on
non-numeric text: `"0.7%"` coerces to `0.7` and `"-0.5%"` to `-0.5`; the
literal `"N/A"` in any casing and the empty string coerce to absent;
`"51.2"` (no `%`) parsed by the plain-number extractor yields `51.2`; and
whenever either extractor succeeds the input really contains a token of
its pattern (`[-+]?\d+\.\d+\s*%`, resp. `[-+]?\d+\.\d+`), so every
string containing no matching numeric token coerces to absent. -/
theorem numeric_coercion_contract :
    _extract_numeric_percent (some "0.7%") = some (0.7 : ℚ) ∧
    _extract_numeric_percent (some "-0.5%") = some (-0.5 : ℚ) ∧
    _extract_numeric_percent (some "N/A") = none ∧
    _extract_numeric_percent (some "n/a") = none ∧
    _extract_numeric_percent (some "N/a") = none ∧
    _extract_numeric_percent (some "") = none ∧
    _extract_numeric_percent none = none ∧
    _extract_numeric_plain (some "51.2") = some (51.2 : ℚ) ∧
    _extract_numeric_plain (some "N/A") = none ∧
    (∀ (s : String) (q : ℚ), _extract_numeric_percent (some s) = some q →
      ∃ pre sg d1 d2 ws post, (sg = [] ∨ sg = ['-'] ∨ sg = ['+']) ∧
        d1 ≠ [] ∧ d1.all Char.isDigit = true ∧ d2 ≠ [] ∧ d2.all Char.isDigit = true ∧
        ws.all isPySpace = true ∧
        s.data = pre ++ (sg ++ (d1 ++ ('.' :: (d2 ++ (ws ++ ('%' :: post))))))) ∧
    (∀ (s : String) (q : ℚ), _extract_numeric_plain (some s) = some q →
      ∃ pre sg d1 d2 post, (sg = [] ∨ sg = ['-'] ∨ sg = ['+']) ∧
        d1 ≠ [] ∧ d1.all Char.isDigit = true ∧ d2 ≠ [] ∧ d2.all Char.isDigit = true ∧
        s.data = pre ++ (sg ++ (d1 ++ ('.' :: (d2 ++ post))))) := by
  refine ⟨?_, ?_, by decide, by decide, by decide, by decide, rfl, ?_, by decide, ?_, ?_⟩
  · have h : searchPercent "0.7%".data = some ⟨false, 0, 7, 1⟩ := by decide
    rw [_extract_numeric_percent, if_neg (by decide), h]
    norm_num [tokVal]
  · have h : searchPercent "-0.5%".data = some ⟨true, 0, 5, 1⟩ := by decide
    rw [_extract_numeric_percent, if_neg (by decide), h]
    norm_num [tokVal]
  · have h : searchPlain "51.2".data = some ⟨false, 51, 2, 1⟩ := by decide
    rw [_extract_numeric_plain, if_neg (by decide), h]
    norm_num [tokVal]
  · intro s q hq
    simp only [_extract_numeric_percent] at hq
    split_ifs at hq with hs
    rw [Option.map_eq_some'] at hq
    obtain ⟨tok, htok, -⟩ := hq
    exact searchPercent_sound _ _ htok
  · intro s q hq
    simp only [_extract_numeric_plain] at hq
    split_ifs at hq with hs
    rw [Option.map_eq_some'] at hq
    obtain ⟨tok, htok, -⟩ := hq
    exact searchPlain_sound _ _ htok

end EdgeFinder
